import Mathlib

/-!
Verification of the seniorvoice-ai core pipeline.

This file gives a shallow embedding of the two core stages of the
repository — the audio conditioning / transcription-selection pipeline of
`speech_model.py` and the text normalization / intent extraction pipeline of
`backend/intent_model.py` — and proves or refutes the frozen claims about
them.

Modelling conventions:
* Python floats are modelled as exact rationals (`ℚ`); the decimal literals
  of the source (`0.85`, `0.008`, `1.3`, …) are taken at face value.
  Python's `round` (banker's rounding) is modelled by `pyRound`.
* Python strings are Lean `String`s; most scanning work happens on the
  underlying `List Char`.  Python's `\w` covers Unicode word characters;
  for the vocabulary of this application (ASCII, Latin-1 letters, Arabic
  script) we model it as ASCII alphanumerics, `_`, and any codepoint
  ≥ 0xC0.  Python's `\s` is modelled by the six ASCII whitespace
  characters.  `str.lower`/`str.upper` are modelled by the ASCII
  `Char.toLower`/`Char.toUpper` (all dictionary words are ASCII).
* Calendar dates are modelled by their day number (an integer, with day 0
  a Monday, matching `date.weekday()`'s Monday = 0 convention);
  `date.isoformat` is an injective rendering of a date, so equalities of
  rendered dates are verified as equalities of day numbers.
  `timedelta(days = k)` is `+ k`.
* Python dicts that the code only builds and reads key-by-key
  (`ParsedCommand`, whisper results) are modelled as structures; a key
  read with `dict.get(k, default)` is an `Option` field read with `getD`.
-/

namespace SeniorVoice

/-! ## Character classes (Python regex classes used by the source) -/

/-- Python regex `\s` (ASCII part): space, tab, newline, carriage return,
vertical tab, form feed. -/
def isSpaceChar (c : Char) : Bool :=
  c == ' ' || c == '\t' || c == '\n' || c == '\r' || c == '\x0b' || c == '\x0c'

/-- Python regex `\w`: ASCII alphanumerics, underscore, and (approximating
the Unicode word characters used by this application's vocabulary:
accented Latin-1 letters and Arabic script) any codepoint ≥ 0xC0. -/
def isWordChar (c : Char) : Bool :=
  c.isAlphanum || c == '_' || decide (0xC0 ≤ c.toNat)

/-- The punctuation class `[.,;:!?]` of `clean_text`. -/
def isPunctChar (c : Char) : Bool :=
  c == '.' || c == ',' || c == ';' || c == ':' || c == '!' || c == '?'

/-- Whether the previous character (if any) is a non-word character, i.e.
whether a `\b` boundary sits before a word character at this position. -/
def prevNonWord : Option Char → Bool
  | none => true
  | some p => !isWordChar p

/-- Whether the next character (if any) is a non-word character, i.e.
whether a `\b` boundary sits after a word character at this position. -/
def afterNonWord : List Char → Bool
  | [] => true
  | c :: _ => !isWordChar c

/-! ## Generic string scanning helpers -/

/-- Python `pat in s` (substring containment), on character lists. -/
def containsSubC (pat : List Char) : List Char → Bool
  | [] => pat.isEmpty
  | s@(_ :: rest) => pat.isPrefixOf s || containsSubC pat rest

/-- Python `pat in s` on strings: `containsSub s pat` models `pat in s`. -/
def containsSub (s pat : String) : Bool :=
  containsSubC pat.data s.data

/-- Python `s.count(pat)` (non-overlapping, left to right).  `skip` is the
number of characters still to pass over silently as the tail of an
already-counted occurrence (0 when scanning normally), making the
recursion structural on the string.  The source only counts nonempty
patterns; for `pat = []` this returns 0. -/
def countSubC (pat : List Char) : Nat → List Char → Nat
  | _, [] => 0
  | skip + 1, _ :: rest => countSubC pat skip rest
  | 0, c :: rest =>
    if pat ≠ [] ∧ pat.isPrefixOf (c :: rest) then
      1 + countSubC pat (pat.length - 1) rest
    else
      countSubC pat 0 rest

/-- Python `s.strip()` (both ends, whitespace). -/
def stripC (l : List Char) : List Char :=
  ((l.dropWhile isSpaceChar).reverse.dropWhile isSpaceChar).reverse

/-- Python `s.strip()` on strings. -/
def pyStrip (s : String) : String :=
  ⟨stripC s.data⟩

/-- Helper of `pySplit`: `acc` is the current word accumulated in reverse
(empty when between words). -/
def pySplitAux : List Char → List Char → List (List Char)
  | acc, [] => if acc = [] then [] else [acc.reverse]
  | acc, c :: rest =>
    if isSpaceChar c then
      if acc = [] then pySplitAux [] rest
      else acc.reverse :: pySplitAux [] rest
    else pySplitAux (c :: acc) rest

/-- Python `str.split()` / `re.split(r"\s+", ·)` on an already-stripped
string: split on whitespace runs, dropping empty pieces. -/
def pySplit (l : List Char) : List (List Char) :=
  pySplitAux [] l

/-- Python `s.replace(w, r)` (all non-overlapping occurrences, left to
right).  `skip` is the number of characters still to pass over silently
as the tail of an already-replaced occurrence (0 when scanning
normally).  The source only replaces nonempty `w`. -/
def replaceAllC (w r : List Char) : Nat → List Char → List Char
  | _, [] => []
  | skip + 1, _ :: rest => replaceAllC w r skip rest
  | 0, c :: rest =>
    if w ≠ [] ∧ w.isPrefixOf (c :: rest) then
      r ++ replaceAllC w r (w.length - 1) rest
    else
      c :: replaceAllC w r 0 rest

/-- Python `s.capitalize()`: first character uppercased, the rest
lowercased. -/
def capitalizeStr (s : String) : String :=
  match s.data with
  | [] => s
  | c :: rest => ⟨c.toUpper :: rest.map Char.toLower⟩

/-! ## `clean_text` (intent_model.py lines 54-62) -/

/-- The filler-word list `FILLERS` of intent_model.py. -/
def FILLERS : List String :=
  ["euh", "mmm", "ben", "yaani", "bah", "heuu", "uh", "ah"]

/-- One pass of `re.sub(rf"\b{filler}\b", " ", value)`: replace each
whole-word occurrence of `w` (a word made of word characters, as all
fillers are) by a single space.  `prev` is the character just before the
current position in the original string (`none` at the start); `\b`
reduces to that neighbour being a non-word character.  `skip` is the
number of characters still to pass over silently as the tail of an
already-replaced occurrence (scanning cannot restart inside a match, as
in `re.sub`); it is 0 when scanning normally. -/
def subWordAux (w : List Char) : Option Char → Nat → List Char → List Char
  | _, _, [] => []
  | _, skip + 1, c :: rest => subWordAux w (some c) skip rest
  | prev, 0, c :: rest =>
    if w ≠ [] ∧ w.isPrefixOf (c :: rest) ∧ prevNonWord prev ∧
        afterNonWord ((c :: rest).drop w.length) then
      ' ' :: subWordAux w (some c) (w.length - 1) rest
    else
      c :: subWordAux w (some c) 0 rest

/-- `re.sub(r"[.,;:!?]+", " ", value)`: collapse punctuation runs to a
single space.  `inRun` records whether the previous character belonged
to the current punctuation run (the run's single replacement space has
already been emitted). -/
def subPunct : Bool → List Char → List Char
  | _, [] => []
  | inRun, c :: rest =>
    if isPunctChar c then
      if inRun then subPunct true rest else ' ' :: subPunct true rest
    else c :: subPunct false rest

/-- Greedily consume the `(\s+\1\b)+` repetitions of the word `w`:
one-or-more whitespace, then exactly `w`, then a `\b` boundary, as many
times as possible; returns the remaining suffix.  Each round consumes at
least one character, so any `fuel` of at least the suffix length
computes the full greedy consumption (callers pass the suffix length). -/
def eatReps (w : List Char) : Nat → List Char → List Char
  | 0, r => r
  | _ + 1, [] => []
  | fuel + 1, c :: rest =>
    if isSpaceChar c ∧ w.isPrefixOf ((c :: rest).dropWhile isSpaceChar) ∧
        afterNonWord (((c :: rest).dropWhile isSpaceChar).drop w.length) then
      eatReps w fuel (((c :: rest).dropWhile isSpaceChar).drop w.length)
    else
      c :: rest

/-- `re.sub(r"\b(\w+)(\s+\1\b)+", r"\1", value)`: collapse immediate
repetitions of a whole word to a single copy.  At a word boundary the
regex engine must take the maximal `\w+` run (a shorter prefix would be
followed by a word character where `\s+` is required), then greedily eats
`(\s+\1\b)+`; a match with zero repetitions fails and scanning resumes at
the next word start.  Each step consumes at least one character, so any
`fuel` of at least the string length computes the full scan (callers
pass the string length). -/
def collapseRepeats : Nat → Option Char → List Char → List Char
  | 0, _, s => s
  | _ + 1, _, [] => []
  | fuel + 1, prev, c :: rest =>
    if prevNonWord prev ∧ isWordChar c then
      (c :: rest).takeWhile isWordChar ++
        collapseRepeats fuel ((c :: rest).takeWhile isWordChar).getLast?
          (eatReps ((c :: rest).takeWhile isWordChar) rest.length
            ((c :: rest).dropWhile isWordChar))
    else
      c :: collapseRepeats fuel (some c) rest

/-- `re.sub(r"\s+", " ", value)`: collapse whitespace runs to a single
space.  `inRun` records whether the previous character belonged to the
current whitespace run. -/
def collapseSpacesC : Bool → List Char → List Char
  | _, [] => []
  | inRun, c :: rest =>
    if isSpaceChar c then
      if inRun then collapseSpacesC true rest else ' ' :: collapseSpacesC true rest
    else c :: collapseSpacesC false rest

/-- `clean_text` (intent_model.py lines 54-62): lowercase and strip, remove
whole-word fillers, collapse punctuation runs, collapse immediate word
repetitions, collapse whitespace, strip. -/
def clean_text (text : String) : String :=
  let value := stripC (text.data.map Char.toLower)
  let value := FILLERS.foldl (fun acc f => subWordAux f.data none 0 acc) value
  let value := subPunct false value
  let value := collapseRepeats value.length none value
  let value := stripC (collapseSpacesC false value)
  ⟨value⟩

/-! ## `normalize_dialect` (intent_model.py lines 65-68) -/

/-- The dialect dictionary `DIALECT_DICT` of intent_model.py, in
declaration order. -/
def DIALECT_DICT : List (String × String) :=
  [("sbah", "matin"), ("ghodwa", "demain"), ("ghodwaa", "demain"),
   ("doctour", "docteur"), ("docteur", "docteur"), ("chnouwa", "quoi"),
   ("lyoum", "aujourdhui"), ("el", ""), ("saa", "heure"),
   ("dwa", "medicament"), ("jaw", "meteo"), ("klim", "appelle")]

/-- `DIALECT_DICT.get(tok, tok)`. -/
def dmapGet (tok : String) : String :=
  (DIALECT_DICT.lookup tok).getD tok

/-- `" ".join(tokens)`, on character-list tokens. -/
def joinC : List (List Char) → List Char
  | [] => []
  | [t] => t
  | t :: ts => t ++ ' ' :: joinC ts

/-- One token of the `normalize_dialect` comprehension:
`DIALECT_DICT.get(tok, tok)`, dropped (`none`) when it maps to the empty
string. -/
def dialectToken (tk : List Char) : Option (List Char) :=
  let m := (dmapGet ⟨tk⟩).data
  if m = [] then none else some m

/-- `normalize_dialect` (intent_model.py lines 65-68): split on whitespace,
map each token through the dialect dictionary (unmapped tokens pass
through), drop tokens that map to the empty string, rejoin with single
spaces. -/
def normalize_dialect (text : String) : String :=
  ⟨joinC ((pySplit text.data).filterMap dialectToken)⟩

/-- The full Text Normalizer: `clean_text` followed by `normalize_dialect`
(the composition used at the head of `parse_command`). -/
def normalizeText (s : String) : String :=
  normalize_dialect (clean_text s)

/-! ## `detect_intent` (intent_model.py lines 71-90) -/

/-- The intent keyword table `INTENT_KEYWORDS` of intent_model.py, as an
ordered list of (intent, keywords) pairs in declaration order (Python
dicts iterate in insertion order). -/
def INTENT_KEYWORDS : List (String × List String) :=
  [("create_reminder", ["rappelle", "rappel", "souviens", "rdv"]),
   ("medication_reminder", ["medicament", "cachet", "traitement", "pilule"]),
   ("call_contact", ["appelle", "appel", "telephone", "contacte"]),
   ("emergency_call", ["urgence", "samu", "ambulance", "secours"]),
   ("get_weather", ["meteo", "temps", "pluie", "temperature"]),
   ("set_alarm", ["alarme", "reveil", "reveille"]),
   ("check_time", ["quelle heure", "heure", "wa9tech", "temps maintenant"]),
   ("cancel_reminder", ["annule", "supprime", "efface", "enleve le rappel"]),
   ("send_message", ["message", "sms", "envoie", "dis a"]),
   ("play_media", ["musique", "radio", "coran", "quran", "chanson"])]

/-- `INTENT_KEYWORDS[name]` (Python dict indexing on a known key). -/
def kwOf (name : String) : List String :=
  (INTENT_KEYWORDS.lookup name).getD []

/-- The `scored` list of `detect_intent`: for each intent (in declaration
order) the number of its keywords occurring as substrings of `text`,
keeping only intents with a positive count. -/
def scoredIntents (text : String) : List (Nat × String) :=
  INTENT_KEYWORDS.filterMap (fun p =>
    let score := p.2.countP (fun k => containsSub text k)
    if score > 0 then some (score, p.1) else none)

/-- Python string comparison `s <= t` on character lists: code-point
lexicographic order. -/
def charListLe : List Char → List Char → Bool
  | [], _ => true
  | _ :: _, [] => false
  | a :: as, b :: bs =>
    if a.toNat < b.toNat then true
    else if b.toNat < a.toNat then false
    else charListLe as bs

/-- Python string comparison `s <= t` (code-point lexicographic). -/
def strLe (s t : String) : Bool :=
  charListLe s.data t.data

/-- The comparison realised by Python's `scored.sort(reverse=True)` on
`(score, intent)` tuples: `descPairLe p q` holds when `p` may come before
`q` in the descending lexicographic order, i.e. when `q ≤ p` as pairs
(string comparison is code-point lexicographic, as in Python). -/
def descPairLe (p q : Nat × String) : Prop :=
  q.1 < p.1 ∨ (q.1 = p.1 ∧ strLe q.2 p.2 = true)

instance : DecidableRel descPairLe := fun p q =>
  decidable_of_iff (q.1 < p.1 ∨ (q.1 = p.1 ∧ strLe q.2 p.2 = true)) Iff.rfl

/-- `scored.sort(reverse=True); scored[0][1]`: the intent selected before
the overrides, i.e. the second component of the head of the descending
lexicographic sort of the scored list. -/
def bestIntent (text : String) : String :=
  ((List.insertionSort descPairLe (scoredIntents text)).headD (0, "unknown")).2

/-- `detect_intent` (intent_model.py lines 71-90): keyword scoring, then
descending sort and head, then the emergency / medication overrides. -/
def detect_intent (text : String) : String :=
  if (scoredIntents text).isEmpty then "unknown"
  else if bestIntent text = "call_contact" ∧
      (kwOf "emergency_call").any (fun k => containsSub text k) then "emergency_call"
  else if bestIntent text = "create_reminder" ∧
      (kwOf "medication_reminder").any (fun k => containsSub text k) then "medication_reminder"
  else bestIntent text

/-! ## `extract_time` (intent_model.py lines 93-109)

The two patterns `\b([01]?\d|2[0-3])\s*h(?:\s*([0-5]\d))?\b` and
`\b([01]?\d|2[0-3]):([0-5]\d)\b` are matched with Python `re.search`
semantics: leftmost match, alternatives tried in order with backtracking.
`\s*` before a non-whitespace literal and `\d+` before a non-digit
literal are deterministic (maximal runs), so the only true choice point
is the hour alternation and the optional minutes group. -/

/-- Numeric value of an ASCII digit. -/
def digitVal (c : Char) : Nat := c.toNat - 48

/-- The hour candidates `([01]?\d|2[0-3])` at the current position, as
(value, rest) pairs in backtracking order: two digits with leading 0/1,
one digit, then `2[0-3]`. -/
def tryHourAlts : List Char → List (Nat × List Char)
  | a :: b :: rest =>
    (if (a == '0' || a == '1') && b.isDigit then
      [(10 * digitVal a + digitVal b, rest)] else []) ++
    (if a.isDigit then [(digitVal a, b :: rest)] else []) ++
    (if a == '2' && (b == '0' || b == '1' || b == '2' || b == '3') then
      [(20 + digitVal b, rest)] else [])
  | [a] => if a.isDigit then [(digitVal a, [])] else []
  | [] => []

/-- Match `\s*h(?:\s*([0-5]\d))?\b` against `rest`; returns the minute
(0 when the optional group is absent).  The greedy optional group is
tried first, falling back to the bare `h\b`. -/
def restAfterHourP1 (rest : List Char) : Option Nat :=
  match rest.dropWhile isSpaceChar with
  | 'h' :: r2 =>
    (match r2.dropWhile isSpaceChar with
     | a :: b :: r4 =>
       if ('0' ≤ a ∧ a ≤ '5') ∧ b.isDigit ∧ afterNonWord r4 then
         some (10 * digitVal a + digitVal b)
       else none
     | _ => none).orElse
    (fun _ => if afterNonWord r2 then some 0 else none)
  | _ => none

/-- Match `:([0-5]\d)\b` against `rest`. -/
def restAfterHourP2 (rest : List Char) : Option Nat :=
  match rest with
  | ':' :: a :: b :: r =>
    if ('0' ≤ a ∧ a ≤ '5') ∧ b.isDigit ∧ afterNonWord r then
      some (10 * digitVal a + digitVal b)
    else none
  | _ => none

/-- `re.search` of pattern 1 over the whole string: at each position with
a `\b` before a digit, try the hour alternatives then the rest of the
pattern; otherwise advance one character. -/
def searchP1 : Option Char → List Char → Option (Nat × Nat)
  | _, [] => none
  | prev, c :: rest =>
    (if prevNonWord prev then
      (tryHourAlts (c :: rest)).findSome? (fun hr =>
        (restAfterHourP1 hr.2).map (fun m => (hr.1, m)))
     else none).orElse
    (fun _ => searchP1 (some c) rest)

/-- `re.search` of pattern 2 over the whole string. -/
def searchP2 : Option Char → List Char → Option (Nat × Nat)
  | _, [] => none
  | prev, c :: rest =>
    (if prevNonWord prev then
      (tryHourAlts (c :: rest)).findSome? (fun hr =>
        (restAfterHourP2 hr.2).map (fun m => (hr.1, m)))
     else none).orElse
    (fun _ => searchP2 (some c) rest)

/-- `f"{n:02d}"`: two-digit zero-padded rendering. -/
def fmt2 (n : Nat) : String :=
  if n < 10 then "0" ++ toString n else toString n

/-- `extract_time` (intent_model.py lines 93-109): the two regex patterns
in order, then the "matin"/"soir" fallbacks, else no time. -/
def extract_time (text : String) : Option String :=
  match searchP1 none text.data with
  | some hm => some (fmt2 hm.1 ++ ":" ++ fmt2 hm.2)
  | none =>
    match searchP2 none text.data with
    | some hm => some (fmt2 hm.1 ++ ":" ++ fmt2 hm.2)
    | none =>
      if containsSub text "matin" then some "09:00"
      else if containsSub text "soir" then some "20:00"
      else none

/-! ## `extract_date` (intent_model.py lines 112-137) -/

/-- The weekday-name table of `extract_date`, in declaration order
(Monday = 0, as in `date.weekday()`). -/
def WEEKDAYS : List (String × Int) :=
  [("lundi", 0), ("mardi", 1), ("mercredi", 2), ("jeudi", 3),
   ("vendredi", 4), ("samedi", 5), ("dimanche", 6)]

/-- `extract_date` (intent_model.py lines 112-137), on day numbers (day 0
is a Monday, so `weekday(d) = d % 7`): "demain" → +1; "apres demain" →
+2; "aujourdhui"/"auj" → +0; else the first contained weekday name, moved
to the next strict occurrence (`delta = (idx - weekday) % 7`, with 0
promoted to 7); else today. -/
def extract_date (text : String) (reference : Int) : Int :=
  let now := reference
  if containsSub text "demain" then now + 1
  else if containsSub text "apres demain" then now + 2
  else if containsSub text "aujourdhui" || containsSub text "auj" then now
  else
    match WEEKDAYS.find? (fun p => containsSub text p.1) with
    | some p =>
      let delta := (p.2 - now.emod 7).emod 7
      let delta := if delta = 0 then 7 else delta
      now + delta
    | none => now

/-! ## `extract_city`, `extract_contact`, `extract_message`,
`build_reminder_text` (intent_model.py lines 140-175) -/

/-- The city gazetteer `CITY_KEYWORDS` of intent_model.py. -/
def CITY_KEYWORDS : List String :=
  ["tunis", "sfax", "sousse", "nabeul", "monastir", "bizerte", "gabes", "ariana"]

/-- The contact-hint list `CONTACT_HINTS` of intent_model.py. -/
def CONTACT_HINTS : List String :=
  ["fils", "fille", "docteur", "medecin", "voisin", "soeur", "frere", "pharmacie", "taxi"]

/-- `extract_city`: first city contained in the text, capitalized. -/
def extract_city (text : String) : Option String :=
  (CITY_KEYWORDS.find? (fun city => containsSub text city)).map capitalizeStr

/-- The character class `[a-zA-Z0-9' -]` of the contact regex (ASCII
only). -/
def isContactChar (c : Char) : Bool :=
  c.isAlphanum || c == '\'' || c == ' ' || c == '-'

/-- Try the verb alternation `(?:appelle|contacte|telephone a)` at the
current position (alternatives in order; no word boundaries in the
source pattern); returns the suffix after the matched literal. -/
def tryVerbAt (s : List Char) : Option (List Char) :=
  if "appelle".data.isPrefixOf s then some (s.drop 7)
  else if "contacte".data.isPrefixOf s then some (s.drop 8)
  else if "telephone a".data.isPrefixOf s then some (s.drop 11)
  else none

/-- `re.search(r"(?:appelle|contacte|telephone a)\s+([a-zA-Z0-9' -]+)", ·)`:
scan for the first position where a verb, one-or-more whitespace and a
nonempty run of contact characters all match; the captured group is the
maximal run. -/
def searchContact : List Char → Option (List Char)
  | [] => none
  | c :: rest =>
    ((tryVerbAt (c :: rest)).bind (fun after =>
      if after.takeWhile isSpaceChar ≠ [] then
        let body := after.dropWhile isSpaceChar
        if body.takeWhile isContactChar ≠ [] then
          some (body.takeWhile isContactChar)
        else none
      else none)).orElse
    (fun _ => searchContact rest)

/-- Whether one alternative of
`\b(demain|aujourdhui|a|a\s+\d|vers|a\s+\d+h)\b` matches at the current
position (the leading `\b` is checked by the caller; every alternative
starts with a word character).  The `a\s+\d` and `a\s+\d+h` alternatives
are kept for fidelity although the earlier bare `a` shadows them. -/
def temporalAt (s : List Char) : Bool :=
  ("demain".data.isPrefixOf s && afterNonWord (s.drop 6)) ||
  ("aujourdhui".data.isPrefixOf s && afterNonWord (s.drop 10)) ||
  (match s with
   | 'a' :: r => afterNonWord r
   | _ => false) ||
  (match s with
   | 'a' :: r =>
     r.takeWhile isSpaceChar ≠ [] &&
       (match r.dropWhile isSpaceChar with
        | d :: r2 => d.isDigit && afterNonWord r2
        | [] => false)
   | _ => false) ||
  ("vers".data.isPrefixOf s && afterNonWord (s.drop 4)) ||
  (match s with
   | 'a' :: r =>
     r.takeWhile isSpaceChar ≠ [] &&
       (match (r.dropWhile isSpaceChar).dropWhile Char.isDigit with
        | 'h' :: r2 =>
          (r.dropWhile isSpaceChar).takeWhile Char.isDigit ≠ [] && afterNonWord r2
        | _ => false)
   | _ => false)

/-- The part of `cand` before the first temporal-connector match, i.e.
`re.split(r"\b(demain|aujourdhui|a|a\s+\d|vers|a\s+\d+h)\b", cand)[0]`. -/
def splitTemporalPre : Option Char → List Char → List Char
  | _, [] => []
  | prev, c :: rest =>
    if prevNonWord prev && temporalAt (c :: rest) then []
    else c :: splitTemporalPre (some c) rest

/-- The contact-hint fallback loop of `extract_contact`. -/
def hintFallback (text : String) : Option String :=
  CONTACT_HINTS.find? (fun hint => containsSub text hint)

/-- `extract_contact` (intent_model.py lines 147-158): regex capture after
a call verb, trimmed at the first temporal connector; when that yields
nothing, the first contained contact hint; else none. -/
def extract_contact (text : String) : Option String :=
  match searchContact text.data with
  | some grp =>
    let candidate := stripC grp
    let candidate := stripC (splitTemporalPre none candidate)
    if candidate ≠ [] then some ⟨candidate⟩
    else hintFallback text
  | none => hintFallback text

/-- `re.search(r"(?:message|sms|envoie)\s+(.*)", ·)`: find the first verb
occurrence followed by one-or-more whitespace; the captured group runs to
the end of the line (`.` does not match a newline).  The group may be
empty. -/
def searchMsgVerb : List Char → Option (List Char)
  | [] => none
  | c :: rest =>
    ((if "message".data.isPrefixOf (c :: rest) then some ((c :: rest).drop 7)
      else if "sms".data.isPrefixOf (c :: rest) then some ((c :: rest).drop 3)
      else if "envoie".data.isPrefixOf (c :: rest) then some ((c :: rest).drop 6)
      else none).bind (fun after =>
        if after.takeWhile isSpaceChar ≠ [] then
          some ((after.dropWhile isSpaceChar).takeWhile (fun d => d ≠ '\n'))
        else none)).orElse
    (fun _ => searchMsgVerb rest)

/-- `extract_message` (intent_model.py lines 161-165). -/
def extract_message (text : String) : String :=
  match searchMsgVerb text.data with
  | some grp =>
    if stripC grp ≠ [] then capitalizeStr ⟨stripC grp⟩
    else "Message vocal senior"
  | none => "Message vocal senior"

/-- `build_reminder_text` (intent_model.py lines 168-175). -/
def build_reminder_text (text : String) : String :=
  if containsSub text "docteur" then "Rendez-vous docteur"
  else
    let stripped := ["rappelle moi", "rappelle", "demain", "matin", "soir",
      "medicament"].foldl (fun acc tok => replaceAllC tok.data [' '] 0 acc) text.data
    let stripped := stripC (collapseSpacesC false stripped)
    if stripped ≠ [] then capitalizeStr ⟨stripped⟩ else "Rappel"

/-! ## `parse_command` (intent_model.py lines 178-223) and the `/process`
assembly (app.py lines 40-44) -/

/-- The `ParsedCommand` payload dict.  `parse_command` inserts the three
base keys and then conditionally adds slot keys; an `Option` field is
`none` exactly when the key is absent (the source never stores a present
key we model as `none` except `time`/`contact`, whose Python value may be
`None`; that distinction is not observable through the claims).  `date`
is a day number (see the header). -/
structure ParsedCommand where
  action : String
  normalized_text : String
  confidence : ℚ
  date : Option Int := none
  time : Option String := none
  text : Option String := none
  contact : Option String := none
  city : Option String := none
  timezone : Option String := none
  media : Option String := none
  raw_text : Option String := none
  language : Option String := none
deriving DecidableEq

/-- The `create_reminder` / `medication_reminder` / `set_alarm` slot
block of `parse_command` (lines 189-196). -/
def addReminderSlots (today : Int) (normalized action : String)
    (payload : ParsedCommand) : ParsedCommand :=
  if action == "create_reminder" || action == "medication_reminder" ||
      action == "set_alarm" then
    { payload with
      date := some (extract_date normalized today)
      time := extract_time normalized
      text := some (build_reminder_text normalized) }
  else payload

/-- The `call_contact` / `emergency_call` slot block (lines 198-199). -/
def addCallSlots (normalized action : String) (payload : ParsedCommand) :
    ParsedCommand :=
  if action == "call_contact" || action == "emergency_call" then
    { payload with
      contact := if action == "emergency_call" then some "urgence"
        else extract_contact normalized }
  else payload

/-- The `get_weather` slot block (lines 201-203). -/
def addWeatherSlots (today : Int) (normalized action : String)
    (payload : ParsedCommand) : ParsedCommand :=
  if action == "get_weather" then
    { payload with
      city := some ((extract_city normalized).getD "Tunis")
      date := some (extract_date normalized today) }
  else payload

/-- The `check_time` slot block (lines 205-206). -/
def addTimezoneSlot (action : String) (payload : ParsedCommand) : ParsedCommand :=
  if action == "check_time" then { payload with timezone := some "Africa/Tunis" }
  else payload

/-- The `cancel_reminder` slot block (lines 208-209). -/
def addCancelSlot (today : Int) (normalized action : String)
    (payload : ParsedCommand) : ParsedCommand :=
  if action == "cancel_reminder" then
    { payload with date := some (extract_date normalized today) }
  else payload

/-- The `send_message` slot block (lines 211-213). -/
def addMessageSlots (normalized action : String) (payload : ParsedCommand) :
    ParsedCommand :=
  if action == "send_message" then
    { payload with
      contact := some ((extract_contact normalized).getD "famille")
      text := some (extract_message normalized) }
  else payload

/-- The `play_media` slot block (lines 215-221). -/
def addMediaSlot (normalized action : String) (payload : ParsedCommand) :
    ParsedCommand :=
  if action == "play_media" then
    { payload with
      media := some (if containsSub normalized "coran" || containsSub normalized "quran"
        then "quran"
        else if containsSub normalized "radio" then "radio"
        else "musique") }
  else payload

/-- `parse_command` (intent_model.py lines 178-223): build the base
payload, then apply the conditional slot blocks in source order.
`today` is the day number of `date.today()` (the impure default
reference of `extract_date`), made an explicit parameter. -/
def parse_command (today : Int) (raw_text : String) : ParsedCommand :=
  let cleaned := clean_text raw_text
  let normalized := normalize_dialect cleaned
  let action := detect_intent normalized
  addMediaSlot normalized action
    (addMessageSlots normalized action
      (addCancelSlot today normalized action
        (addTimezoneSlot action
          (addWeatherSlots today normalized action
            (addCallSlots normalized action
              (addReminderSlots today normalized action
                { action := action, normalized_text := normalized,
                  confidence := 0 }))))))

/-- The externally visible output of `transcribe_audio`. -/
structure TranscriptionOutput where
  text : String
  confidence : ℚ
  language : String
deriving DecidableEq

/-- The response assembly of the `/process` endpoint (app.py lines 40-44):
parse the transcript, then overwrite `confidence` and add `raw_text` and
`language` from the transcription result. -/
def processAssemble (today : Int) (stt : TranscriptionOutput) : ParsedCommand :=
  let parsed := parse_command today stt.text
  { parsed with
    confidence := stt.confidence
    raw_text := some stt.text
    language := some stt.language }

/-! ## speech_model.py: audio conditioning -/

/-- The target sample rate `TARGET_SR` of speech_model.py. -/
def TARGET_SR : Nat := 16000

/-- Python `round` on a rational: round half to even (banker's
rounding), as Python's built-in `round` does. -/
def pyRound (q : ℚ) : Int :=
  if q - ⌊q⌋ < 1/2 then ⌊q⌋
  else if 1/2 < q - ⌊q⌋ then ⌊q⌋ + 1
  else if ⌊q⌋ % 2 = 0 then ⌊q⌋ else ⌊q⌋ + 1

/-- `np.interp` at source-index position `t` over the sample list `a`
(the source grid is `linspace(0, duration, n, endpoint=False)`, i.e.
sample `i` sits at index position `i`): clamp below 0 and above `n - 1`,
otherwise interpolate linearly between the two bracketing samples. -/
def interpAt (a : List ℚ) (t : ℚ) : ℚ :=
  if t ≤ 0 then a.headD 0
  else if (a.length : ℚ) - 1 ≤ t then a.getLastD 0
  else
    let i := t.floor.toNat
    a.getD i 0 + (a.getD (i + 1) 0 - a.getD i 0) * (t - (i : ℚ))

/-- `_resample_linear` (speech_model.py lines 56-67): pass through when the
rates agree or the audio is empty; compute
`dst_len = round(duration * dst_sr)` (with `duration = n / src_sr`, so
`duration * dst_sr = n * dst_sr / src_sr` exactly); return unresampled if
`dst_len ≤ 1`; otherwise linearly interpolate onto
`linspace(0, duration, dst_len, endpoint=False)`, whose point `j` sits at
source-index position `j * n / dst_len`. -/
def resample_linear (audio : List ℚ) (src_sr : Nat) (dst_sr : Nat := TARGET_SR) :
    List ℚ :=
  if src_sr = dst_sr ∨ audio = [] then audio
  else
    let n := audio.length
    let dst_len := (pyRound ((n : ℚ) * dst_sr / src_sr)).toNat
    if dst_len ≤ 1 then audio
    else (List.range dst_len).map (fun (j : Nat) => interpAt audio ((j : ℚ) * n / dst_len))

/-- `np.max(np.abs(audio))` (0 for empty audio; the source only reads the
peak of nonempty audio). -/
def peakAbs (audio : List ℚ) : ℚ :=
  audio.foldl (fun m x => max m |x|) 0

/-- `np.clip(x, -1.0, 1.0)`. -/
def clip1 (x : ℚ) : ℚ :=
  max (-1) (min 1 x)

/-- `_normalize_peak` (speech_model.py lines 70-79): pass empty audio
through; pass through when the peak is below the silence epsilon `1e-6`;
otherwise apply `gain = min(0.85 / peak, 6.0)` and hard-clip to
`[-1, 1]`. -/
def normalize_peak (audio : List ℚ) (target_peak : ℚ := 17/20) : List ℚ :=
  if audio = [] then audio
  else
    let peak := peakAbs audio
    if peak < 1/1000000 then audio
    else audio.map (fun x => clip1 (x * min (target_peak / peak) 6))

/-! ## speech_model.py: repetition guard and quality scorer -/

/-- `_is_repetitive` (speech_model.py lines 82-94): lower-case and
whitespace-tokenize; fewer than 3 words is not repetitive; at most 2
distinct words among at least 4 is; otherwise flag when the first two
words, joined by a space, occur at least 3 times (non-overlapping) in the
lower-cased text. -/
def is_repetitive (text : String) : Bool :=
  let lower := text.data.map Char.toLower
  let words := pySplit (stripC lower)
  if words.length < 3 then false
  else if words.dedup.length ≤ 2 ∧ 4 ≤ words.length then true
  else
    let pair := joinC (words.take 2)
    if pair ≠ [] ∧ 3 ≤ countSubC pair 0 lower then true
    else false

/-- The allow-list class of `_ALLOWED_CHAR`
(`[A-Za-z?-?؀-ۿ0-9\s'?.,!?;:()\-]` — the two `?` are literal question
marks in the source file, making `?-?` the single character `?`): ASCII
letters, the Arabic block U+0600–U+06FF, digits, whitespace, and
`' ? . , ! ; : ( ) -`. -/
def allowedChar (c : Char) : Bool :=
  decide (('A' ≤ c ∧ c ≤ 'Z') ∨ ('a' ≤ c ∧ c ≤ 'z') ∨ c = '?' ∨
    (0x600 ≤ c.toNat ∧ c.toNat ≤ 0x6FF) ∨ ('0' ≤ c ∧ c ≤ '9') ∨
    isSpaceChar c = true ∨ c = '\'' ∨ c = '.' ∨ c = ',' ∨ c = '!' ∨
    c = ';' ∨ c = ':' ∨ c = '(' ∨ c = ')' ∨ c = '-')

/-- The Cyrillic block test `"Ѐ" <= ch <= "ӿ"` (U+0400–U+04FF). -/
def isCyrChar (c : Char) : Bool :=
  decide (0x400 ≤ c.toNat ∧ c.toNat ≤ 0x4FF)

/-- One segment-level diagnostic dict of a whisper result; each key is
read with a `.get` default, hence `Option` fields. -/
structure SegmentDiag where
  avg_logprob : Option ℚ := none
  no_speech_prob : Option ℚ := none
  compressionRate : Option ℚ := none
deriving DecidableEq

/-- One whisper attempt result dict (`text`, `language`, `segments` are
all read with `.get` defaults). -/
structure AttemptResult where
  text : Option String := none
  language : Option String := none
  segments : Option (List SegmentDiag) := none
deriving DecidableEq

/-- The mean of `seg.get("avg_logprob", -1.5)` over the segments. -/
def meanLogprob (segments : List SegmentDiag) : ℚ :=
  (segments.map (fun seg => seg.avg_logprob.getD (-(3/2)))).sum / segments.length

/-- The mean of `seg.get("no_speech_prob", 0.5)` over the segments. -/
def meanNoSpeech (segments : List SegmentDiag) : ℚ :=
  (segments.map (fun seg => seg.no_speech_prob.getD (1/2))).sum / segments.length

/-- The mean of `seg.get("compression_ratio", 2.0)` over the segments. -/
def meanCompression (segments : List SegmentDiag) : ℚ :=
  (segments.map (fun seg => seg.compressionRate.getD 2)).sum / segments.length

/-- The linear scoring formula returned by `_text_quality_score`
(speech_model.py lines 121-128):
`2.5·allowed − 1.3·no_speech − 0.8·compression_penalty − 3.2·cyr` plus
the mean log-probability minus the repetition penalty. -/
def scoreFormula (allowedFrac avgLogprob avgNoSpeech compressionPenalty cyrFrac
    repetitionPenalty : ℚ) : ℚ :=
  (5/2) * allowedFrac + avgLogprob - (13/10) * avgNoSpeech
    - (4/5) * compressionPenalty - (16/5) * cyrFrac - repetitionPenalty

/-- `_text_quality_score` (speech_model.py lines 97-128): `-999.0` for
empty or whitespace-only text; otherwise the linear formula over the
character-set fractions, segment means (with defaults when no segments
exist), compression penalty `max(0, mean_compression − 2.4)` and
repetition penalty `1.8` when the Repetition Guard flags the text. -/
def text_quality_score (text : String) (result : AttemptResult) : ℚ :=
  if stripC text.data = [] then -999
  else
    let length : ℚ := max text.length 1
    let allowedFrac := ((text.data.filter allowedChar).length : ℚ) / length
    let cyrFrac := ((text.data.filter isCyrChar).length : ℚ) / length
    let segments := (result.segments).getD []
    let avgLogprob := if segments ≠ [] then meanLogprob segments else -(3/2)
    let avgNoSpeech := if segments ≠ [] then meanNoSpeech segments else 1/2
    let avgCompression := if segments ≠ [] then meanCompression segments else 2
    let repetitionPenalty : ℚ := if is_repetitive text then 9/5 else 0
    let compressionPenalty : ℚ := max 0 (avgCompression - 12/5)
    scoreFormula allowedFrac avgLogprob avgNoSpeech compressionPenalty cyrFrac
      repetitionPenalty

/-! ## speech_model.py: hypothesis selection and result assembly -/

/-- The attempt loop of `transcribe_audio` (lines 167-177): invoke the
engine with language hints `None, "fr", "ar"` in order, score each
attempt's stripped text, and keep the attempt with the strictly highest
score (initial best score `-10_000.0`).  The engine — an external
collaborator — is a parameter: a function from the conditioned audio and
the language hint to a result dict. -/
def selectBest (engine : List ℚ → Option String → AttemptResult) (audio : List ℚ) :
    Option AttemptResult :=
  (([none, some "fr", some "ar"] : List (Option String)).foldl
    (fun acc lang =>
      let result := engine audio lang
      let text := pyStrip (result.text.getD "")
      let score := text_quality_score text result
      if acc.2 < score then (some result, score) else acc)
    ((none : Option AttemptResult), (-10000 : ℚ))).1

/-- Python `round(q, 3)`: rounding to 3 decimal places (banker's
rounding, as Python's `round`). -/
def round3 (q : ℚ) : ℚ :=
  (pyRound (q * 1000) : ℚ) / 1000

/-- `result = best_result or {"text": "", "language": "unknown",
"segments": []}` (line 179; `None` is the only falsy value our typed
model of the loop can produce). -/
def selectedResult (best : Option AttemptResult) : AttemptResult :=
  best.getD { text := some "", language := some "unknown", segments := some [] }

/-- `text = result.get("text", "").strip()` (line 180). -/
def selectedText (best : Option AttemptResult) : String :=
  pyStrip ((selectedResult best).text.getD "")

/-- The pre-suppression confidence of lines 182-187:
`max(0.0, min(1.0, 1.0 - avg_no_speech))` when segments exist, else the
fixed fallback `0.4`. -/
def rawConfidence (best : Option AttemptResult) : ℚ :=
  let segments := ((selectedResult best).segments).getD []
  if segments ≠ [] then max 0 (min 1 (1 - meanNoSpeech segments))
  else 2/5

/-- The final result assembly of `transcribe_audio` (lines 179-196):
`best_result or {"text": "", "language": "unknown", "segments": []}`,
confidence `1 − mean(no_speech_prob)` clamped to `[0, 1]` when segments
exist (else `0.4`), the repetition-guard suppression
(`text = ""`, `confidence = min(confidence, 0.35)` when the stripped text
is flagged and confidence `< 0.75`), and rounding to 3 decimals. -/
def assembleResult (best : Option AttemptResult) : TranscriptionOutput :=
  let suppressed := is_repetitive (selectedText best) = true ∧ rawConfidence best < 3/4
  { text := if suppressed then "" else selectedText best
    confidence := round3
      (if suppressed then min (rawConfidence best) (7/20) else rawConfidence best)
    language := (selectedResult best).language.getD "unknown" }

/-- `sum(audio[i]^2) / len(audio)` — the square of the RMS energy.  The
source compares `rms = sqrt(meanSq) < 0.008`; since both sides are
nonnegative this is equivalent to `meanSq < 0.008² = 1/15625`, which is
how the comparison is phrased here (square roots are avoided). -/
def meanSq (audio : List ℚ) : ℚ :=
  (audio.map (fun x => x ^ 2)).sum / audio.length

/-- `transcribe_audio` (speech_model.py lines 150-196), from the decoded
waveform onward (`_read_wav_as_float32` is the I/O boundary; `audio, sr`
are its outputs).  Conditioning, then the short-clip gate
(`audio.size < int(0.7 * TARGET_SR) = 11200`) and the energy gate
(`rms < 0.008`), then hypothesis selection and result assembly. -/
def transcribe_audio (engine : List ℚ → Option String → AttemptResult)
    (audio : List ℚ) (sr : Nat) : TranscriptionOutput :=
  let conditioned := normalize_peak (resample_linear audio sr TARGET_SR)
  if conditioned.length < 11200 then
    { text := "", confidence := 0, language := "unknown" }
  else if (if conditioned.length ≠ 0 then meanSq conditioned else 0) < 1/15625 then
    { text := "", confidence := 0, language := "unknown" }
  else
    assembleResult (selectBest engine conditioned)

/-! # Theorems for the frozen claims -/

/-- The Python string order is reflexive. -/
theorem charListLe_refl (l : List Char) : charListLe l l = true := by
  induction l with
  | nil => rfl
  | cons a as ih => simp [charListLe, ih]

/-- The Python string order is total. -/
theorem charListLe_total (l m : List Char) :
    charListLe l m = true ∨ charListLe m l = true := by
  induction l generalizing m with
  | nil => exact Or.inl rfl
  | cons a as ih =>
    cases m with
    | nil => exact Or.inr rfl
    | cons b bs =>
      rcases Nat.lt_trichotomy a.toNat b.toNat with h | h | h
      · left
        simp [charListLe, h]
      · rcases ih bs with h2 | h2
        · left
          simp [charListLe, h, h2]
        · right
          simp [charListLe, h, h2]
      · right
        simp [charListLe, h]

/-- The Python string order is transitive. -/
theorem charListLe_trans {l m n : List Char} (h1 : charListLe l m = true)
    (h2 : charListLe m n = true) : charListLe l n = true := by
  induction l generalizing m n with
  | nil => rfl
  | cons a as ih =>
    cases m with
    | nil => simp [charListLe] at h1
    | cons b bs =>
      cases n with
      | nil => simp [charListLe] at h2
      | cons c cs =>
        simp only [charListLe] at h1 h2 ⊢
        split_ifs at h1 h2 ⊢ <;>
          first
          | rfl
          | exact ih h1 h2
          | (exfalso; omega)

instance : IsTotal (Nat × String) descPairLe where
  total p q := by
    rcases Nat.lt_trichotomy p.1 q.1 with h | h | h
    · exact Or.inr (Or.inl h)
    · rcases charListLe_total p.2.data q.2.data with hs | hs
      · exact Or.inr (Or.inr ⟨h, hs⟩)
      · exact Or.inl (Or.inr ⟨h.symm, hs⟩)
    · exact Or.inl (Or.inl h)

instance : IsTrans (Nat × String) descPairLe where
  trans a b c hab hbc := by
    rcases hab with h1 | ⟨h1, h1s⟩ <;> rcases hbc with h2 | ⟨h2, h2s⟩
    · exact Or.inl (h2.trans h1)
    · exact Or.inl (lt_of_eq_of_lt h2 h1)
    · exact Or.inl (lt_of_lt_of_eq h2 h1)
    · exact Or.inr ⟨h2.trans h1, charListLe_trans h2s h1s⟩

/-- Claim C1, counterexample: on the normalized text "pluie alarme" the
intents "get_weather" and "set_alarm" tie with one keyword match each,
"get_weather" being declared first in `INTENT_KEYWORDS`; yet the selected
intent (before any override; no override applies here) is "set_alarm",
because `scored.sort(reverse=True)` breaks ties by descending intent
name, not by declaration order. -/
theorem claim_C1_counterexample :
    scoredIntents "pluie alarme" = [(1, "get_weather"), (1, "set_alarm")] ∧
    bestIntent "pluie alarme" = "set_alarm" ∧
    detect_intent "pluie alarme" = "set_alarm" :=
  ⟨rfl, rfl, rfl⟩

/-- Claim C1 (amended): for every normalized input text with at least one
keyword match, the intent selected before the emergency/medication
overrides has a maximal keyword-match count, and among the intents tying
at that count it is the one with the lexicographically greatest name
(descending `(count, name)` order) — not the first-declared one. -/
theorem claim_C1_amended (text : String) (h : scoredIntents text ≠ []) :
    ∃ s, (s, bestIntent text) ∈ scoredIntents text ∧
      ∀ q ∈ scoredIntents text, q.1 < s ∨ (q.1 = s ∧ strLe q.2 (bestIntent text) = true) := by
  have hperm := List.perm_insertionSort descPairLe (scoredIntents text)
  have hsorted := List.sorted_insertionSort descPairLe (scoredIntents text)
  rcases hs : List.insertionSort descPairLe (scoredIntents text) with _ | ⟨hd, tl⟩
  · refine absurd (List.length_eq_zero.mp ?_) h
    have hlen := hperm.length_eq
    rw [hs] at hlen
    exact hlen.symm
  · rw [hs] at hperm hsorted
    have hbest : bestIntent text = hd.2 := by
      rw [bestIntent, hs]
      rfl
    have hmem : hd ∈ scoredIntents text :=
      hperm.mem_iff.mp (List.mem_cons_self hd tl)
    refine ⟨hd.1, ?_, ?_⟩
    · rw [hbest]
      exact hmem
    · intro q hq
      have hq' : q ∈ hd :: tl := hperm.mem_iff.mpr hq
      rw [hbest]
      rcases List.mem_cons.mp hq' with rfl | hqtl
      · exact Or.inr ⟨rfl, charListLe_refl _⟩
      · exact List.rel_of_sorted_cons hsorted q hqtl

/-- Witness for `claim_C1_amended` at the concrete text "pluie alarme". -/
theorem claim_C1_witness :
    ∃ s, (s, bestIntent "pluie alarme") ∈ scoredIntents "pluie alarme" ∧
      ∀ q ∈ scoredIntents "pluie alarme",
        q.1 < s ∨ (q.1 = s ∧ strLe q.2 (bestIntent "pluie alarme") = true) :=
  claim_C1_amended "pluie alarme" (by decide)

/-- Claim C2: contrary to the claim, a text containing "apres demain"
makes `extract_date` return the day after the reference date, not two
days after: the "demain" branch is checked first and "demain" is a
substring of "apres demain", so the "apres demain" branch is
unreachable (the code's own dead branch shows the claimed behavior was
intended). -/
theorem claim_C2_code_bug (reference : Int) :
    extract_date "apres demain" reference = reference + 1 ∧
    extract_date "apres demain" reference ≠ reference + 2 := by
  constructor
  · rfl
  · intro hcontra
    have h1 : reference + 1 = reference + 2 := by
      calc reference + 1 = extract_date "apres demain" reference := rfl
        _ = reference + 2 := hcontra
    omega

/-- Claim C3: a waveform that after conditioning is shorter than 0.7 s at
16 kHz (11200 samples) or has RMS energy below 0.008 (mean square below
0.008²) makes `transcribe_audio` return the empty result with confidence
0 and language "unknown", for every engine — the engine is never
consulted. -/
theorem claim_C3_thm (engine : List ℚ → Option String → AttemptResult)
    (audio : List ℚ) (sr : Nat)
    (h : (normalize_peak (resample_linear audio sr TARGET_SR)).length < 11200 ∨
      meanSq (normalize_peak (resample_linear audio sr TARGET_SR)) < 1/15625) :
    transcribe_audio engine audio sr =
      { text := "", confidence := 0, language := "unknown" } := by
  rcases h with h | h
  · simp only [transcribe_audio]
    rw [if_pos h]
  · simp only [transcribe_audio]
    by_cases h1 : (normalize_peak (resample_linear audio sr TARGET_SR)).length < 11200
    · rw [if_pos h1]
    · have hne : (normalize_peak (resample_linear audio sr TARGET_SR)).length ≠ 0 := by
        omega
      rw [if_neg h1, if_pos (show _ < (1 : ℚ)/15625 by rw [if_pos hne]; exact h)]

/-- Witness for `claim_C3_thm`: the empty waveform is rejected as too
short whatever the engine would have answered. -/
theorem claim_C3_witness :
    transcribe_audio
      (fun _ _ => { text := some "bonjour", language := some "fr", segments := some [] })
      ([] : List ℚ) 16000 =
      { text := "", confidence := 0, language := "unknown" } :=
  claim_C3_thm _ ([] : List ℚ) 16000
    (Or.inl (by norm_num [resample_linear, normalize_peak]))

/-- The reminder slot block does not touch the confidence field. -/
theorem addReminderSlots_confidence (today : Int) (n a : String) (p : ParsedCommand) :
    (addReminderSlots today n a p).confidence = p.confidence := by
  unfold addReminderSlots
  split <;> rfl

/-- The call slot block does not touch the confidence field. -/
theorem addCallSlots_confidence (n a : String) (p : ParsedCommand) :
    (addCallSlots n a p).confidence = p.confidence := by
  unfold addCallSlots
  split <;> rfl

/-- The weather slot block does not touch the confidence field. -/
theorem addWeatherSlots_confidence (today : Int) (n a : String) (p : ParsedCommand) :
    (addWeatherSlots today n a p).confidence = p.confidence := by
  unfold addWeatherSlots
  split <;> rfl

/-- The timezone slot block does not touch the confidence field. -/
theorem addTimezoneSlot_confidence (a : String) (p : ParsedCommand) :
    (addTimezoneSlot a p).confidence = p.confidence := by
  unfold addTimezoneSlot
  split <;> rfl

/-- The cancel slot block does not touch the confidence field. -/
theorem addCancelSlot_confidence (today : Int) (n a : String) (p : ParsedCommand) :
    (addCancelSlot today n a p).confidence = p.confidence := by
  unfold addCancelSlot
  split <;> rfl

/-- The message slot block does not touch the confidence field. -/
theorem addMessageSlots_confidence (n a : String) (p : ParsedCommand) :
    (addMessageSlots n a p).confidence = p.confidence := by
  unfold addMessageSlots
  split <;> rfl

/-- The media slot block does not touch the confidence field. -/
theorem addMediaSlot_confidence (n a : String) (p : ParsedCommand) :
    (addMediaSlot n a p).confidence = p.confidence := by
  unfold addMediaSlot
  split <;> rfl

/-- Claim C9: the `/process` assembly copies the transcription confidence
into the parsed command verbatim, and `parse_command` itself assigns the
constant confidence 0 whatever its text input — it never derives a
confidence from the text. -/
theorem claim_C9_thm (today : Int) (stt : TranscriptionOutput) :
    (processAssemble today stt).confidence = stt.confidence ∧
    ∀ s : String, (parse_command today s).confidence = 0 := by
  constructor
  · rfl
  · intro s
    simp only [parse_command, addMediaSlot_confidence, addMessageSlots_confidence,
      addCancelSlot_confidence, addTimezoneSlot_confidence, addWeatherSlots_confidence,
      addCallSlots_confidence, addReminderSlots_confidence]

/-- Claim C10: when no intent keyword matches the normalized text, the
returned payload has action "unknown" and carries none of the slot
fields (date, time, text, contact, city, timezone, media); totality is
by construction of the embedding (every branch of `parse_command` is a
total function). -/
theorem claim_C10_thm (today : Int) (s : String)
    (h : scoredIntents (normalize_dialect (clean_text s)) = []) :
    (parse_command today s).action = "unknown" ∧
    (parse_command today s).date = none ∧
    (parse_command today s).time = none ∧
    (parse_command today s).text = none ∧
    (parse_command today s).contact = none ∧
    (parse_command today s).city = none ∧
    (parse_command today s).timezone = none ∧
    (parse_command today s).media = none := by
  have ha : detect_intent (normalize_dialect (clean_text s)) = "unknown" := by
    unfold detect_intent
    rw [h]
    rfl
  simp only [parse_command]
  rw [ha]
  refine ⟨rfl, rfl, rfl, rfl, rfl, rfl, rfl, rfl⟩

/-- Witness for `claim_C10_thm`: the input "zzz" matches no keyword. -/
theorem claim_C10_witness :
    (parse_command 0 "zzz").action = "unknown" ∧
    (parse_command 0 "zzz").date = none ∧
    (parse_command 0 "zzz").time = none ∧
    (parse_command 0 "zzz").text = none ∧
    (parse_command 0 "zzz").contact = none ∧
    (parse_command 0 "zzz").city = none ∧
    (parse_command 0 "zzz").timezone = none ∧
    (parse_command 0 "zzz").media = none :=
  claim_C10_thm 0 "zzz" (by decide)

/-- Every element of a list is bounded by the running foldl-maximum of
absolute values, and the accumulator only grows. -/
theorem peakAbs_foldl_bound (l : List ℚ) (m : ℚ) :
    (∀ x ∈ l, |x| ≤ l.foldl (fun a y => max a |y|) m) ∧
      m ≤ l.foldl (fun a y => max a |y|) m := by
  induction l generalizing m with
  | nil => exact ⟨by simp, le_refl m⟩
  | cons y ys ih =>
    constructor
    · intro x hx
      rcases List.mem_cons.mp hx with rfl | hmem
      · exact le_trans (le_max_right m |x|) (ih (max m |x|)).2
      · exact (ih (max m |y|)).1 x hmem
    · exact le_trans (le_max_left m |y|) (ih (max m |y|)).2

/-- Hard clipping stays within `[-1, 1]`. -/
theorem abs_clip1_le_one (v : ℚ) : |clip1 v| ≤ 1 := by
  rw [clip1, abs_le]
  constructor
  · exact le_max_left (-1) (min 1 v)
  · exact max_le (by norm_num) (min_le_left 1 v)

/-- The silence branch of `_normalize_peak`. -/
theorem normalize_peak_small (audio : List ℚ) (hne : audio ≠ [])
    (hp : peakAbs audio < 1/1000000) : normalize_peak audio = audio := by
  unfold normalize_peak
  rw [if_neg hne]
  exact if_pos hp

/-- The gain-and-clip branch of `_normalize_peak`. -/
theorem normalize_peak_gain (audio : List ℚ) (hne : audio ≠ [])
    (hp : ¬ peakAbs audio < 1/1000000) :
    normalize_peak audio =
      audio.map (fun x => clip1 (x * min ((17/20) / peakAbs audio) 6)) := by
  unfold normalize_peak
  rw [if_neg hne]
  exact if_neg hp

/-- Claim C8: peak normalization never produces a sample of absolute
value above 1; it returns the input unchanged whenever the peak
amplitude is below `1e-6` (the empty waveform included, whose peak is
0); otherwise it applies the gain `min(0.85 / peak, 6.0)` followed by a
hard clip to `[-1, 1]`. -/
theorem claim_C8_thm (audio : List ℚ) :
    (∀ x ∈ normalize_peak audio, |x| ≤ 1) ∧
    (peakAbs audio < 1/1000000 → normalize_peak audio = audio) ∧
    (1/1000000 ≤ peakAbs audio →
      normalize_peak audio =
        audio.map (fun x => clip1 (x * min ((17/20) / peakAbs audio) 6))) := by
  refine ⟨?_, ?_, ?_⟩
  · intro x hx
    by_cases hne : audio = []
    · subst hne
      simp [normalize_peak] at hx
    · by_cases hp : peakAbs audio < 1/1000000
      · rw [normalize_peak_small audio hne hp] at hx
        have h1 : |x| ≤ peakAbs audio := (peakAbs_foldl_bound audio 0).1 x hx
        have h2 : (1 : ℚ)/1000000 ≤ 1 := by norm_num
        linarith
      · rw [normalize_peak_gain audio hne hp] at hx
        obtain ⟨y, _, rfl⟩ := List.mem_map.mp hx
        exact abs_clip1_le_one _
  · intro hp
    by_cases hne : audio = []
    · subst hne
      rfl
    · exact normalize_peak_small audio hne hp
  · intro hge
    have hne : audio ≠ [] := by
      intro he
      subst he
      norm_num [peakAbs] at hge
    exact normalize_peak_gain audio hne (not_lt.mpr hge)

/-- Witness for `claim_C8_thm`: the no-op branch on a near-silent sample
and the gain-and-clip branch on a loud sample. -/
theorem claim_C8_witness :
    normalize_peak [(1 : ℚ)/2000000] = [(1 : ℚ)/2000000] ∧
    normalize_peak [(2 : ℚ)] =
      [(2 : ℚ)].map (fun x => clip1 (x * min ((17/20) / peakAbs [(2 : ℚ)]) 6)) :=
  ⟨(claim_C8_thm [(1 : ℚ)/2000000]).2.1 (by norm_num [peakAbs, abs_of_pos]),
   (claim_C8_thm [(2 : ℚ)]).2.2 (by norm_num [peakAbs, abs_of_pos])⟩

/-- Python's `round` lands within half a unit of its argument. -/
theorem pyRound_dist (q : ℚ) : |(pyRound q : ℚ) - q| ≤ 1/2 := by
  have h1 : (⌊q⌋ : ℚ) ≤ q := Int.floor_le q
  have h2 : q < ⌊q⌋ + 1 := Int.lt_floor_add_one q
  unfold pyRound
  split_ifs with ha hb hc
  · rw [abs_le]
    constructor <;> linarith
  · rw [abs_le]
    push_cast
    constructor <;> linarith
  · rw [abs_le]
    constructor <;> linarith
  · rw [abs_le]
    push_cast
    have heq : q - (⌊q⌋ : ℚ) = 1/2 := by
      rcases lt_trichotomy (q - (⌊q⌋ : ℚ)) (1/2) with h | h | h
      · exact absurd h ha
      · exact h
      · exact absurd h hb
    constructor <;> linarith

/-- Claim C7, counterexample: four samples at 48 kHz hit the degenerate
branch (`round(4 * 16000 / 48000) = 1 ≤ 1`), are returned unresampled,
and the resulting duration mismatch `|4/16000 − 4/48000| = 1/6000`
exceeds one sample period even at the coarser (target) rate. -/
theorem claim_C7_counterexample :
    resample_linear [(1 : ℚ), 1, 1, 1] 48000 16000 = [(1 : ℚ), 1, 1, 1] ∧
    |((resample_linear [(1 : ℚ), 1, 1, 1] 48000 16000).length : ℚ) / 16000 -
      (4 : ℚ) / 48000| > 1 / 16000 := by
  have hfl : ⌊((List.length [(1 : ℚ), 1, 1, 1] : ℚ)) * (16000 : ℕ) / (48000 : ℕ)⌋ = 1 := by
    rw [Int.floor_eq_iff]
    push_cast
    norm_num
  have hpr : pyRound (((List.length [(1 : ℚ), 1, 1, 1] : ℚ)) * (16000 : ℕ) / (48000 : ℕ)) = 1 := by
    rw [pyRound, hfl]
    rw [if_pos (by push_cast; norm_num)]
  have h : resample_linear [(1 : ℚ), 1, 1, 1] 48000 16000 = [(1 : ℚ), 1, 1, 1] := by
    rw [resample_linear]
    rw [if_neg (by simp), if_pos (by rw [hpr]; norm_num)]
  refine ⟨h, ?_⟩
  rw [h]
  rw [show ((([(1 : ℚ), 1, 1, 1] : List ℚ).length : ℚ)) / 16000 - (4 : ℚ) / 48000 =
    1/6000 by norm_num]
  rw [abs_of_pos (by norm_num)]
  norm_num

/-- Claim C7 (amended): resampling passes audio through unchanged when the
source rate equals the target rate or the audio is empty, and also — the
degenerate branch — when the computed output length
`round(duration * 16000)` is at most 1; duration preservation within one
target-rate sample period holds whenever that computed output length is
at least 2 (in the degenerate branch it can fail, see the
counterexample). -/
theorem claim_C7_amended (audio : List ℚ) (src_sr : Nat) (hsr : 0 < src_sr) :
    (src_sr = TARGET_SR ∨ audio = [] →
      resample_linear audio src_sr TARGET_SR = audio) ∧
    (audio ≠ [] ∧ src_sr ≠ TARGET_SR ∧
        pyRound ((audio.length : ℚ) * TARGET_SR / src_sr) ≤ 1 →
      resample_linear audio src_sr TARGET_SR = audio) ∧
    (2 ≤ pyRound ((audio.length : ℚ) * TARGET_SR / src_sr) →
      |((resample_linear audio src_sr TARGET_SR).length : ℚ) / TARGET_SR -
        (audio.length : ℚ) / src_sr| ≤ 1 / TARGET_SR) := by
  refine ⟨fun h => ?_, fun h => ?_, fun h => ?_⟩
  · simp [resample_linear, h]
  · have hlen : (pyRound ((audio.length : ℚ) * TARGET_SR / src_sr)).toNat ≤ 1 := by
      omega
    simp only [resample_linear]
    rw [if_neg (by tauto), if_pos hlen]
  · by_cases hpass : src_sr = TARGET_SR ∨ audio = []
    · rcases hpass with hpass | hpass
      · rw [show resample_linear audio src_sr TARGET_SR = audio from by
          simp [resample_linear, hpass]]
        rw [hpass]
        simp
      · subst hpass
        norm_num [pyRound] at h
    · have hlen2 : ¬ (pyRound ((audio.length : ℚ) * TARGET_SR / src_sr)).toNat ≤ 1 := by
        omega
      have hres : resample_linear audio src_sr TARGET_SR =
          (List.range (pyRound ((audio.length : ℚ) * TARGET_SR / src_sr)).toNat).map
            (fun (j : Nat) => interpAt audio ((j : ℚ) * audio.length /
              (pyRound ((audio.length : ℚ) * TARGET_SR / src_sr)).toNat)) := by
        simp only [resample_linear]
        rw [if_neg hpass, if_neg hlen2]
      rw [hres]
      simp only [List.length_map, List.length_range]
      have hcast : (((pyRound ((audio.length : ℚ) * TARGET_SR / src_sr)).toNat : ℚ)) =
          ((pyRound ((audio.length : ℚ) * TARGET_SR / src_sr) : ℤ) : ℚ) := by
        exact_mod_cast congrArg (fun z : ℤ => (z : ℚ))
          (Int.toNat_of_nonneg (show (0 : ℤ) ≤
            pyRound ((audio.length : ℚ) * TARGET_SR / src_sr) by omega))
      rw [hcast]
      have hdist := pyRound_dist ((audio.length : ℚ) * TARGET_SR / src_sr)
      have hsrc : (src_sr : ℚ) ≠ 0 := Nat.cast_ne_zero.mpr (by omega)
      have hT0 : (0 : ℚ) < (TARGET_SR : ℚ) := by
        norm_num [TARGET_SR]
      have hx : (audio.length : ℚ) / src_sr =
          ((audio.length : ℚ) * TARGET_SR / src_sr) / TARGET_SR := by
        field_simp
        ring
      rw [hx, div_sub_div_same, abs_div, abs_of_pos hT0]
      have h1d : |(pyRound ((audio.length : ℚ) * TARGET_SR / src_sr) : ℚ) -
          (audio.length : ℚ) * TARGET_SR / src_sr| ≤ 1 := le_trans hdist (by norm_num)
      exact (div_le_div_iff_of_pos_right hT0).mpr h1d

/-- Witness for `claim_C7_amended`: two samples at 8 kHz resample to four
samples at 16 kHz with exactly matching duration, and audio already at
the target rate passes through. -/
theorem claim_C7_witness :
    |((resample_linear [(1 : ℚ), 0] 8000 TARGET_SR).length : ℚ) / TARGET_SR -
      ((([(1 : ℚ), 0] : List ℚ).length : ℚ)) / 8000| ≤ 1 / TARGET_SR ∧
    resample_linear [(1 : ℚ), 0] 16000 TARGET_SR = [(1 : ℚ), 0] :=
  ⟨(claim_C7_amended [(1 : ℚ), 0] 8000 (by norm_num)).2.2 (by
      rw [show ((([(1 : ℚ), 0] : List ℚ).length : ℚ)) * (TARGET_SR : ℚ) /
          ((8000 : ℕ) : ℚ) = 4 from by norm_num [TARGET_SR]]
      rw [pyRound]
      norm_num [Int.floor_ofNat]),
   (claim_C7_amended [(1 : ℚ), 0] 16000 (by norm_num)).1 (Or.inl rfl)⟩

/-- Claim C4: in the final result assembly, the pre-rounding confidence is
`1` minus the mean of the segments' `no_speech_prob` values clamped to
`[0, 1]` when the selected attempt has segments, and the fixed fallback
`0.4` otherwise; when the Repetition Guard flags the selected text and
the confidence is below `0.75` the returned text is empty and the
confidence is `min(confidence, 0.35)`; the returned confidence is always
rounded to 3 decimal places (`round3`). -/
theorem claim_C4_thm (best : Option AttemptResult) :
    ((selectedResult best).segments.getD [] ≠ [] →
      rawConfidence best = max 0 (min 1 (1 -
        (((selectedResult best).segments.getD []).map
          (fun seg => seg.no_speech_prob.getD (1/2))).sum /
        ((selectedResult best).segments.getD []).length))) ∧
    ((selectedResult best).segments.getD [] = [] → rawConfidence best = 2/5) ∧
    (is_repetitive (selectedText best) = true ∧ rawConfidence best < 3/4 →
      assembleResult best =
        { text := "", confidence := round3 (min (rawConfidence best) (7/20)),
          language := (selectedResult best).language.getD "unknown" }) ∧
    (¬ (is_repetitive (selectedText best) = true ∧ rawConfidence best < 3/4) →
      assembleResult best =
        { text := selectedText best, confidence := round3 (rawConfidence best),
          language := (selectedResult best).language.getD "unknown" }) := by
  refine ⟨fun hs => ?_, fun hs => ?_, fun hsup => ?_, fun hsup => ?_⟩
  · simp only [rawConfidence, meanNoSpeech]
    rw [if_pos hs]
  · simp only [rawConfidence]
    rw [if_neg (not_not_intro hs)]
  · simp only [assembleResult]
    rw [if_pos hsup, if_pos hsup]
  · simp only [assembleResult]
    rw [if_neg hsup, if_neg hsup]

/-- Witness for `claim_C4_thm`: the fallback confidence on the
no-attempt result, the suppression branch on a low-confidence repetitive
attempt, the segment-mean formula on that same attempt, and the plain
branch on a clean attempt. -/
theorem claim_C4_witness :
    rawConfidence none = 2/5 ∧
    assembleResult (some (AttemptResult.mk (some " bla bla bla bla ") (some "fr")
        (some [SegmentDiag.mk none (some (2/5)) none]))) =
      TranscriptionOutput.mk ""
        (round3 (min (rawConfidence (some (AttemptResult.mk (some " bla bla bla bla ")
          (some "fr") (some [SegmentDiag.mk none (some (2/5)) none])))) (7/20)))
        ((selectedResult (some (AttemptResult.mk (some " bla bla bla bla ") (some "fr")
          (some [SegmentDiag.mk none (some (2/5)) none])))).language.getD "unknown") ∧
    assembleResult (some (AttemptResult.mk (some "bonjour docteur") (some "fr")
        (some []))) =
      TranscriptionOutput.mk
        (selectedText (some (AttemptResult.mk (some "bonjour docteur") (some "fr")
          (some []))))
        (round3 (rawConfidence (some (AttemptResult.mk (some "bonjour docteur")
          (some "fr") (some [])))))
        ((selectedResult (some (AttemptResult.mk (some "bonjour docteur") (some "fr")
          (some [])))).language.getD "unknown") :=
  ⟨(claim_C4_thm none).2.1 rfl,
   (claim_C4_thm (some (AttemptResult.mk (some " bla bla bla bla ") (some "fr")
      (some [SegmentDiag.mk none (some (2/5)) none])))).2.2.1
      ⟨by decide, by norm_num [rawConfidence, selectedResult, meanNoSpeech]⟩,
   (claim_C4_thm (some (AttemptResult.mk (some "bonjour docteur") (some "fr")
      (some [])))).2.2.2
      (fun hc => absurd hc.1 (by decide))⟩

/-- Claim C6: the Quality Scorer returns the sentinel `-999` on empty or
whitespace-only text; the linear scoring formula is monotone
non-decreasing in the allowed-character fraction (`allowed_ratio`) and
in the mean log-probability, all other quantities held fixed; and with
the repetition penalty `1.8` the score is exactly `1.8` lower than the
same candidate without the flag. -/
theorem claim_C6_thm :
    (∀ (text : String) (result : AttemptResult),
      pyStrip text = "" → text_quality_score text result = -999) ∧
    (∀ a₁ a₂ l n c y r : ℚ, a₁ ≤ a₂ →
      scoreFormula a₁ l n c y r ≤ scoreFormula a₂ l n c y r) ∧
    (∀ a l₁ l₂ n c y r : ℚ, l₁ ≤ l₂ →
      scoreFormula a l₁ n c y r ≤ scoreFormula a l₂ n c y r) ∧
    (∀ a l n c y : ℚ, scoreFormula a l n c y (9/5) = scoreFormula a l n c y 0 - 9/5) := by
  refine ⟨?_, ?_, ?_, ?_⟩
  · intro text result h
    have hd : stripC text.data = [] := congrArg String.data h
    unfold text_quality_score
    rw [if_pos hd]
  · intro a₁ a₂ l n c y r hle
    simp only [scoreFormula]
    linarith
  · intro a l₁ l₂ n c y r hle
    simp only [scoreFormula]
    linarith
  · intro a l n c y
    simp only [scoreFormula]
    ring

/-- Witness for `claim_C6_thm` at concrete scores and a whitespace-only
text. -/
theorem claim_C6_witness :
    text_quality_score "   " {} = -999 ∧
    scoreFormula 0 (-(3/2)) (1/2) 0 0 0 ≤ scoreFormula 1 (-(3/2)) (1/2) 0 0 0 ∧
    scoreFormula 1 (-2) (1/2) 0 0 0 ≤ scoreFormula 1 (-1) (1/2) 0 0 0 ∧
    scoreFormula 1 (-1) (1/2) 0 0 (9/5) = scoreFormula 1 (-1) (1/2) 0 0 0 - 9/5 :=
  ⟨claim_C6_thm.1 "   " {} (by decide),
   claim_C6_thm.2.1 0 1 (-(3/2)) (1/2) 0 0 0 (by norm_num),
   claim_C6_thm.2.2.1 1 (-2) (-1) (1/2) 0 0 0 (by norm_num),
   claim_C6_thm.2.2.2 1 (-1) (1/2) 0 0⟩

/-! ### Claim C5: idempotence of normalization -/

/-- `pySplitAux` swallows a whole whitespace-free word into the
accumulator. -/
theorem pySplitAux_word : ∀ (t : List Char), (∀ c ∈ t, isSpaceChar c = false) →
    ∀ (acc r : List Char), pySplitAux acc (t ++ r) = pySplitAux (t.reverse ++ acc) r := by
  intro t
  induction t with
  | nil => intro _ acc r; simp
  | cons c ts ih =>
    intro hw acc r
    have hc : isSpaceChar c = false := hw c (List.mem_cons_self c ts)
    have hts : ∀ d ∈ ts, isSpaceChar d = false := fun d hd => hw d (List.mem_cons_of_mem c hd)
    simp only [List.cons_append, pySplitAux, hc, Bool.false_eq_true, if_false,
      List.append_eq]
    rw [ih hts (c :: acc) r]
    simp

/-- Every token produced by `pySplitAux` from a whitespace-free
accumulator is nonempty and whitespace-free. -/
theorem pySplitAux_tokens : ∀ (l acc : List Char), (∀ c ∈ acc, isSpaceChar c = false) →
    ∀ t ∈ pySplitAux acc l, t ≠ [] ∧ ∀ c ∈ t, isSpaceChar c = false := by
  intro l
  induction l with
  | nil =>
    intro acc hacc t ht
    simp only [pySplitAux] at ht
    by_cases ha : acc = []
    · rw [if_pos ha] at ht
      simp at ht
    · rw [if_neg ha] at ht
      rcases List.mem_singleton.mp ht with rfl
      refine ⟨by simp [ha], fun c hc => hacc c (List.mem_reverse.mp hc)⟩
  | cons c rest ih =>
    intro acc hacc t ht
    simp only [pySplitAux] at ht
    by_cases hc : isSpaceChar c = true
    · rw [if_pos hc] at ht
      by_cases ha : acc = []
      · rw [if_pos ha] at ht
        exact ih [] (by simp) t ht
      · rw [if_neg ha] at ht
        rcases List.mem_cons.mp ht with rfl | hmem
        · refine ⟨by simp [ha], fun d hd => hacc d (List.mem_reverse.mp hd)⟩
        · exact ih [] (by simp) t hmem
    · rw [if_neg hc] at ht
      refine ih (c :: acc) ?_ t ht
      intro d hd
      rcases List.mem_cons.mp hd with rfl | hd2
      · exact Bool.eq_false_iff.mpr hc
      · exact hacc d hd2

/-- Splitting a single-space join of nonempty whitespace-free tokens
recovers exactly the tokens. -/
theorem pySplit_joinC : ∀ (ts : List (List Char)),
    (∀ t ∈ ts, t ≠ [] ∧ ∀ c ∈ t, isSpaceChar c = false) →
    pySplit (joinC ts) = ts := by
  intro ts
  induction ts with
  | nil => intro _; rfl
  | cons t ts2 ih =>
    intro h
    have ht := h t (List.mem_cons_self t ts2)
    cases ts2 with
    | nil =>
      unfold pySplit
      rw [show joinC [t] = t ++ [] from by simp [joinC]]
      rw [pySplitAux_word t ht.2 [] []]
      simp [pySplitAux, ht.1]
    | cons t2 ts3 =>
      have ihh := ih (fun u hu => h u (List.mem_cons_of_mem t hu))
      unfold pySplit
      rw [show joinC (t :: t2 :: ts3) = t ++ (' ' :: joinC (t2 :: ts3)) from rfl]
      rw [pySplitAux_word t ht.2 [] (' ' :: joinC (t2 :: ts3))]
      simp only [pySplitAux]
      rw [if_pos (show isSpaceChar ' ' = true from rfl), if_neg (by simp [ht.1])]
      rw [show pySplitAux [] (joinC (t2 :: ts3)) = pySplit (joinC (t2 :: ts3)) from rfl, ihh]
      simp

/-- A successful association-list lookup is a membership. -/
theorem lookup_mem {β : Type} : ∀ (l : List (String × β)) (k : String) (v : β),
    List.lookup k l = some v → (k, v) ∈ l := by
  intro l
  induction l with
  | nil =>
    intro k v h
    simp at h
  | cons p rest ih =>
    intro k v h
    cases p with
    | mk pk pv =>
      rw [List.lookup] at h
      by_cases hk : (k == pk) = true
      · simp only [hk] at h
        obtain rfl : pk = k := (eq_of_beq hk).symm
        obtain rfl : pv = v := Option.some.inj h
        exact List.mem_cons_self _ _
      · simp only [Bool.eq_false_iff.mpr hk] at h
        exact List.mem_cons_of_mem _ (ih k v h)

/-- Every value stored in `DIALECT_DICT` is a fixed point of the
dictionary mapping. -/
theorem dialect_values_fixed : ∀ p ∈ DIALECT_DICT, dmapGet p.2 = p.2 := by decide

/-- Every value stored in `DIALECT_DICT` is whitespace-free. -/
theorem dialect_values_nospace :
    ∀ p ∈ DIALECT_DICT, ∀ c ∈ p.2.data, isSpaceChar c = false := by decide

/-- The dialect-dictionary map with pass-through default is idempotent on
single tokens. -/
theorem dmapGet_idem (t : String) : dmapGet (dmapGet t) = dmapGet t := by
  unfold dmapGet
  cases hl : List.lookup t DIALECT_DICT with
  | none => simp [hl]
  | some v =>
    have hv : dmapGet v = v := dialect_values_fixed (t, v) (lookup_mem DIALECT_DICT t v hl)
    simp only [hl, Option.getD_some]
    simpa [dmapGet] using hv

/-- A token surviving `dialectToken` is nonempty, whitespace-free, and a
fixed point of `dialectToken`. -/
theorem dialectToken_props (tk m : List Char) (hs : ∀ c ∈ tk, isSpaceChar c = false)
    (h : dialectToken tk = some m) :
    m ≠ [] ∧ (∀ c ∈ m, isSpaceChar c = false) ∧ dialectToken m = some m := by
  unfold dialectToken at h ⊢
  by_cases hm : (dmapGet ⟨tk⟩).data = []
  · rw [if_pos hm] at h
    exact absurd h (by simp)
  · rw [if_neg hm] at h
    obtain rfl : (dmapGet ⟨tk⟩).data = m := Option.some.inj h
    refine ⟨hm, ?_, ?_⟩
    · intro c hc
      revert hc
      unfold dmapGet
      cases hl : List.lookup (String.mk tk) DIALECT_DICT with
      | none =>
        intro hc
        exact hs c hc
      | some v =>
        intro hc
        exact dialect_values_nospace (String.mk tk, v)
          (lookup_mem DIALECT_DICT (String.mk tk) v hl) c hc
    · have heta : (⟨(dmapGet ⟨tk⟩).data⟩ : String) = dmapGet ⟨tk⟩ := rfl
      rw [heta, dmapGet_idem]
      rw [if_neg hm]

/-- `filterMap` of a function fixing every element of the list is the
identity on that list. -/
theorem filterMap_fixed {α : Type} (g : α → Option α) :
    ∀ l : List α, (∀ a ∈ l, g a = some a) → l.filterMap g = l := by
  intro l
  induction l with
  | nil => intro _; rfl
  | cons a as ih =>
    intro h
    simp only [List.filterMap_cons, h a (List.mem_cons_self a as)]
    rw [ih (fun b hb => h b (List.mem_cons_of_mem a hb))]

/-- Claim C5 — counterexample.  The full Text Normalizer (`clean_text`
followed by `normalize_dialect`) is NOT idempotent: on
`"ghodwa demain"` the dialect map turns `ghodwa` into `demain`, so the
first pass yields `"demain demain"`, and a second pass collapses the now
adjacent duplicate words (via `clean_text`'s repeated-word removal) to
`"demain"`. -/
theorem claim_C5_counterexample :
    normalizeText (normalizeText "ghodwa demain") ≠ normalizeText "ghodwa demain" := by
  decide

/-- Claim C5 (amended): `normalize_dialect` alone IS idempotent — its
output is a single-space join of nonempty whitespace-free tokens each of
which is a fixed point of the dialect mapping — but the full Text
Normalizer `clean_text ∘ normalize_dialect` is not, because dialect
mapping can create adjacent duplicate words that only a second
`clean_text` pass collapses. -/
theorem claim_C5_amended (s : String) :
    normalize_dialect (normalize_dialect s) = normalize_dialect s := by
  unfold normalize_dialect
  show (⟨joinC ((pySplit (joinC ((pySplit s.data).filterMap dialectToken))).filterMap
      dialectToken)⟩ : String) = ⟨joinC ((pySplit s.data).filterMap dialectToken)⟩
  have hM : ∀ m ∈ (pySplit s.data).filterMap dialectToken,
      m ≠ [] ∧ (∀ c ∈ m, isSpaceChar c = false) ∧ dialectToken m = some m := by
    intro m hm
    obtain ⟨tk, htk, hdt⟩ := List.mem_filterMap.mp hm
    have hts := pySplitAux_tokens s.data [] (by simp) tk htk
    exact dialectToken_props tk m hts.2 hdt
  rw [pySplit_joinC ((pySplit s.data).filterMap dialectToken)
    (fun t ht => ⟨(hM t ht).1, (hM t ht).2.1⟩)]
  rw [filterMap_fixed dialectToken _ (fun a ha => (hM a ha).2.2)]

end SeniorVoice
